import Mathlib

set_option maxRecDepth 8000

/-!
Shallow embedding of the core of the `tell-me-why` RAG system
(src/tell_me_why/config.py, ingest.py, rag_chain.py, app.py),
with theorems checking the specification's claims against it.
-/

namespace TellMeWhy

/-- The configured extension table, from `IngestionConfig.supported_file_types`
(config.py).  A Python dict iterates in insertion order, so an association
list in the same order is a faithful model. -/
def supported_file_types : List (String × List String) := [
  ("documentation", [".md", ".pdf", ".txt", ".rst", ".adoc", ".tex"]),
  ("web", [".html", ".css", ".scss", ".sass", ".less"]),
  ("javascript", [".js", ".jsx", ".ts", ".tsx", ".mjs", ".cjs"]),
  ("python", [".py", ".pyx", ".pyi"]),
  ("rust", [".rs", ".toml"]),
  ("csharp", [".cs", ".csx", ".cshtml", ".razor"]),
  ("java", [".java", ".kt", ".kts", ".groovy", ".scala"]),
  ("cpp", [".c", ".cpp", ".cc", ".cxx", ".h", ".hpp", ".hxx"]),
  ("go", [".go", ".mod", ".sum"]),
  ("ruby", [".rb", ".erb", ".rake", ".gemspec"]),
  ("php", [".php", ".phtml", ".php3", ".php4", ".php5"]),
  ("shell", [".sh", ".bash", ".zsh", ".fish", ".ps1", ".bat", ".cmd"]),
  ("data", [".json", ".yaml", ".yml", ".xml", ".toml", ".ini", ".conf", ".cfg", ".ipynb"]),
  ("database", [".sql", ".prisma", ".graphql", ".gql"]),
  ("mobile", [".swift", ".m", ".mm", ".dart"]),
  ("other", [".r", ".jl", ".lua", ".vim", ".el", ".clj", ".erl", ".ex", ".exs"])]

/-- The dictionary returned by `DocumentIngestor.categorize_file` (ingest.py). -/
structure FileInfo where
  category : String
  extension : String
  is_code : Bool
  is_documentation : Bool
deriving DecidableEq, Repr

/-- `str.lower()` on an extension (ASCII suffixes), character by
character. -/
def lowercase (s : String) : String := String.mk (s.toList.map Char.toLower)

/-- Python slicing `s[:n]`: the first `n` characters of `s` (all of `s`
when it is shorter). -/
def takeChars (s : String) (n : Nat) : String := String.mk (s.toList.take n)

/-- `DocumentIngestor.categorize_file` (ingest.py): lowercase the suffix and
walk `supported_file_types` in order, returning the first category whose
extension list contains it; otherwise the `unknown` record with both flags
false. -/
def categorize_file (suffix : String) : FileInfo :=
  let ext := lowercase suffix
  match supported_file_types.find? (fun p => p.2.contains ext) with
  | some p =>
      { category := p.1
        extension := ext
        is_code := !(p.1 == "documentation" || p.1 == "data")
        is_documentation := p.1 == "documentation" }
  | none =>
      { category := "unknown"
        extension := ext
        is_code := false
        is_documentation := false }

/-- The `langchain_text_splitters.Language` enum members that ingest.py uses. -/
inductive Lang where
  | JS | TS | PYTHON | RUST | CSHARP | JAVA | KOTLIN | SCALA
  | C | CPP | GO | RUBY | PHP | HTML | MARKDOWN | RST
  | LUA | HASKELL | SWIFT | PERL
deriving DecidableEq, Repr

/-- `Language.<member>.value` for the members above. -/
def Lang.value : Lang → String
  | .JS => "js"
  | .TS => "ts"
  | .PYTHON => "python"
  | .RUST => "rust"
  | .CSHARP => "csharp"
  | .JAVA => "java"
  | .KOTLIN => "kotlin"
  | .SCALA => "scala"
  | .C => "c"
  | .CPP => "cpp"
  | .GO => "go"
  | .RUBY => "ruby"
  | .PHP => "php"
  | .HTML => "html"
  | .MARKDOWN => "markdown"
  | .RST => "rst"
  | .LUA => "lua"
  | .HASKELL => "haskell"
  | .SWIFT => "swift"
  | .PERL => "perl"

/-- `DocumentIngestor.LANGUAGE_SPLITTER_MAP` (ingest.py), in source order. -/
def LANGUAGE_SPLITTER_MAP : List (String × Lang) := [
  (".js", .JS), (".jsx", .JS), (".ts", .TS), (".tsx", .TS),
  (".mjs", .JS), (".cjs", .JS),
  (".py", .PYTHON), (".pyx", .PYTHON), (".pyi", .PYTHON),
  (".rs", .RUST),
  (".cs", .CSHARP), (".csx", .CSHARP),
  (".java", .JAVA), (".kt", .KOTLIN), (".scala", .SCALA),
  (".c", .C), (".cpp", .CPP), (".cc", .CPP), (".cxx", .CPP),
  (".h", .CPP), (".hpp", .CPP), (".hxx", .CPP),
  (".go", .GO),
  (".rb", .RUBY),
  (".php", .PHP),
  (".html", .HTML), (".md", .MARKDOWN), (".rst", .RST),
  (".lua", .LUA),
  (".hs", .HASKELL),
  (".swift", .SWIFT),
  (".pl", .PERL)]

/-- `ext in LANGUAGE_SPLITTER_MAP` / `LANGUAGE_SPLITTER_MAP[ext]` as one lookup. -/
def lookupLang (ext : String) : Option Lang :=
  (LANGUAGE_SPLITTER_MAP.find? (fun p => p.1 == ext)).map (fun p => p.2)

/-- The metadata that `DocumentIngestor.load_single_file` attaches to each
loaded document (ingest.py). -/
structure DocMetadata where
  source_type : String
  file_type : String
  category : String
  source_file : String
  language : Option String
deriving DecidableEq, Repr

/-- A langchain `Document`: page content plus metadata.  Chunks produced by
splitting are documents as well. -/
structure Doc where
  page_content : String
  metadata : DocMetadata
deriving DecidableEq, Repr

/-- One discovered file handed to `load_single_file`: its path, its suffix,
and the outcome of the external langchain loader (`loader.load()` either
returns the file's content pieces or raises). -/
structure FileInput where
  path : String
  suffix : String
  loaded : Except String (List String)
deriving Repr

/-- `DocumentIngestor.load_single_file` (ingest.py): categorize the file,
run the (external) loader — on a loader exception the function logs and
returns `[]` — then stamp every returned document with `source_type`
(`"code"` iff `is_code`), `file_type` (extension without leading dots),
`category`, `source_file`, and `language` when the extension has a
language-aware splitter. -/
def load_single_file (f : FileInput) : List Doc :=
  let info := categorize_file f.suffix
  let ext := info.extension
  match f.loaded with
  | .error _ => []
  | .ok contents =>
      contents.map (fun text =>
        { page_content := text
          metadata :=
            { source_type := if info.is_code then "code" else "documentation"
              file_type := String.mk (ext.toList.dropWhile (fun c => c == '.'))
              category := info.category
              source_file := f.path
              language := (lookupLang ext).map Lang.value } })

/-- A chunker: splits one document into chunks or fails (raises).  The
actual `RecursiveCharacterTextSplitter` objects are external collaborators,
so `split_documents` is parameterized over them. -/
def SplitFn : Type := Doc → Except String (List Doc)

/-- The extension normalization at the top of `split_documents` (ingest.py):
`ext = doc.metadata.get("file_type", "")`, then prepend a dot when the
value is non-empty and does not start with one. -/
def normalizeExt (ext : String) : String :=
  if ext != "" && !(ext.toList.head? == some '.') then "." ++ ext else ext

/-- The per-document body of `DocumentIngestor.split_documents` (ingest.py):
use the language-specific splitter when the extension has one, else the
generic `doc_splitter`; if that attempt raises, retry with the generic
splitter; if the retry also raises, the document contributes no chunks. -/
def split_one (langS : Lang → SplitFn) (genS : SplitFn) (doc : Doc) : List Doc :=
  let ext := normalizeExt doc.metadata.file_type
  let attempt :=
    match lookupLang ext with
    | some lang => langS lang doc
    | none => genS doc
  match attempt with
  | .ok chunks => chunks
  | .error _ =>
      match genS doc with
      | .ok chunks => chunks
      | .error _ => []

/-- `DocumentIngestor.split_documents` (ingest.py): fold `split_one` over the
batch, accumulating `all_chunks` in order. -/
def split_documents (langS : Lang → SplitFn) (genS : SplitFn)
    (docs : List Doc) : List Doc :=
  (docs.map (split_one langS genS)).flatten

/-- Observable outcome of `DocumentIngestor.run_ingestion` (ingest.py):
the value returned to the caller (the function is annotated `-> None` and
every path ends in a bare `return`, so a counts pair would be `some`),
whether a warning was logged, and how many chunks were handed to
`ingest_to_vectorstore`, if any write happened at all. -/
structure IngestionOutcome where
  result : Option (Nat × Nat)
  warned : Bool
  upserted : Option Nat
deriving DecidableEq, Repr

/-- `DocumentIngestor.run_ingestion` (ingest.py), with the discovery/loading
step's output (`self.load_documents(...)`) passed in, since directory
traversal and file reading are external I/O: if no documents were loaded,
warn and return; split; if no chunks, warn and return; otherwise upsert the
chunks.  No path returns a counts pair. -/
def run_ingestion (langS : Lang → SplitFn) (genS : SplitFn)
    (documents : List Doc) : IngestionOutcome :=
  if documents.isEmpty then
    { result := none, warned := true, upserted := none }
  else
    let chunks := split_documents langS genS documents
    if chunks.isEmpty then
      { result := none, warned := true, upserted := none }
    else
      { result := none, warned := false, upserted := some chunks.length }

/-- Python truthiness of `settings.api_keys.anthropic_api_key`
(an `Optional[str]`): falsy when `None` or the empty string. -/
def truthy : Option String → Bool
  | none => false
  | some s => !(s == "")

/-- The errors `RAGChain._initialize_llm` raises (rag_chain.py): a missing
`ANTHROPIC_API_KEY` for the `"claude"` backend, or an unsupported
`llm_type`. -/
inductive ChainError where
  | missingAPIKey
  | unsupportedLLM (t : String)
deriving DecidableEq, Repr

/-- The LLM object that `RAGChain._initialize_llm` returns. -/
inductive LLMDesc where
  | ollamaLLM
  | claudeLLM
deriving DecidableEq, Repr

/-- `RAGChain._initialize_llm` (rag_chain.py): `"ollama"` always succeeds;
`"claude"` requires a truthy `anthropic_api_key` and raises `ValueError`
otherwise; any other identifier raises `ValueError` as unsupported. -/
def select_llm (key : Option String) (llm_type : String) : Except ChainError LLMDesc :=
  if llm_type == "ollama" then .ok .ollamaLLM
  else if llm_type == "claude" then
    if truthy key then .ok .claudeLLM else .error .missingAPIKey
  else .error (.unsupportedLLM llm_type)

/-- A constructed `RAGChain` instance.  `id` models Python object identity:
each construction allocates a fresh object, so distinct ids mean distinct
instances. -/
structure ChainInst where
  llm_type : String
  id : Nat
deriving DecidableEq, Repr

/-- `RAGChain.__init__` (rag_chain.py): load embeddings and the vector
store (external, assumed available), then `_initialize_llm`, whose
exception propagates out of the constructor; on success a fresh instance
exists. -/
def construct_chain (key : Option String) (llm_type : String) (fresh : Nat) :
    Except ChainError ChainInst :=
  match select_llm key llm_type with
  | .error e => .error e
  | .ok _ => .ok { llm_type := llm_type, id := fresh }

/-- The state of `RAGChainManager` (rag_chain.py): the `self.chains` dict as
an association list, plus the allocation counter backing instance
identity. -/
structure ManagerState where
  chains : List (String × ChainInst)
  nextId : Nat
deriving Repr

/-- `self.chains` lookup, i.e. `llm_type in self.chains` /
`self.chains[llm_type]`. -/
def ManagerState.find (s : ManagerState) (llm_type : String) : Option ChainInst :=
  (s.chains.find? (fun p => p.1 == llm_type)).map (fun p => p.2)

/-- `RAGChainManager.get_chain` (rag_chain.py), sequential semantics: if the
identifier is cached return the cached instance and leave the state alone;
otherwise construct — an exception from the constructor propagates before
the dict assignment runs, leaving the cache unchanged — and on success
insert the new instance and return it. -/
def get_chain (key : Option String) (s : ManagerState) (llm_type : String) :
    Except ChainError ChainInst × ManagerState :=
  match s.find llm_type with
  | some c => (.ok c, s)
  | none =>
      match construct_chain key llm_type s.nextId with
      | .error e => (.error e, s)
      | .ok c =>
          (.ok c, { chains := (llm_type, c) :: s.chains, nextId := s.nextId + 1 })

/-- `chain_manager.chains.clear()` as performed by `update_config` and
`reload_config` (app.py): the whole cache is dropped at once.  The
allocation counter is not part of the Python dict; it persists because
object identities already handed out remain taken. -/
def invalidate_cache (s : ManagerState) : ManagerState :=
  { chains := [], nextId := s.nextId }

/-- Well-formedness of the manager state: every cached instance was
allocated by a past construction, so its id is below the counter. -/
def CacheWF (s : ManagerState) : Prop :=
  ∀ p ∈ s.chains, p.2.id < s.nextId

/-- One entry of the `sources` list built by `RAGChain.query`
(rag_chain.py). -/
structure SourceEntry where
  content : String
  metadata : DocMetadata
deriving DecidableEq, Repr

/-- The response dict of `RAGChain.query` (rag_chain.py). -/
structure QueryResponse where
  answer : String
  sources : List SourceEntry
  llm_type : String
  privacy_note : String
deriving DecidableEq, Repr

/-- `RAGChain.query` (rag_chain.py) on the success path, with the two
external effects passed in: `source_docs` is what `self._retriever.invoke`
returned and `answer` what `self.qa_chain.invoke` returned.  Each source
entry holds the first 200 characters of the chunk followed by a literal
`"..."`, plus the chunk's metadata; the privacy note is chosen by comparing
`self.llm_type` with `"ollama"`. -/
def RAGChain.query (llm_type question : String) (source_docs : List Doc)
    (answer : String) : QueryResponse :=
  let _ := question
  { answer := answer
    sources := source_docs.map (fun d =>
      { content := takeChars d.page_content 200 ++ "...", metadata := d.metadata })
    llm_type := llm_type
    privacy_note :=
      if llm_type == "ollama" then
        "Processed locally with Ollama - your code stayed private."
      else
        "⚠ Processed with Claude API - context was sent to Anthropic servers." }

/-! ### Interleaving model of `get_chain` for one uninitialized identifier

`RAGChainManager.get_chain` runs `if llm_type not in self.chains:` then
`self.chains[llm_type] = RAGChain(llm_type=llm_type)` then
`return self.chains[llm_type]`, with no lock.  The membership test, the
long-running construction, the dict assignment, and the final dict read are
separate atomic steps (CPython makes each dict operation atomic, but the
constructor performs I/O and can be preempted).  Two threads call
`get_chain` for the same identifier whose cache slot starts empty. -/

/-- The shared state: the cache slot for the one identifier (holding an
instance id when populated), the allocation counter, and a construction
counter. -/
structure SharedState where
  cache : Option Nat
  nextId : Nat
  constructions : Nat
deriving DecidableEq, Repr

/-- One thread executing the body of `get_chain`: program counter, the
result of its membership test, the instance it constructed, and the value
it returned. -/
structure ThreadState where
  pc : Nat
  sawAbsent : Bool
  built : Option Nat
  result : Option Nat
deriving DecidableEq, Repr

/-- One atomic step of a thread: pc 0 runs the membership test, pc 1
constructs (only if the test saw the slot empty, else fall through to the
read), pc 2 performs the dict assignment, pc 3 re-reads the slot and
returns it, pc 4 is done. -/
def stepThread (s : SharedState) (t : ThreadState) : SharedState × ThreadState :=
  match t.pc with
  | 0 => (s, { t with sawAbsent := s.cache.isNone, pc := 1 })
  | 1 =>
      if t.sawAbsent then
        ({ s with nextId := s.nextId + 1, constructions := s.constructions + 1 },
         { t with built := some s.nextId, pc := 2 })
      else (s, { t with pc := 3 })
  | 2 => ({ s with cache := t.built }, { t with pc := 3 })
  | 3 => (s, { t with result := s.cache, pc := 4 })
  | _ => (s, t)

/-- The whole system: the shared manager state and two threads. -/
structure SysState where
  shared : SharedState
  ta : ThreadState
  tb : ThreadState
deriving DecidableEq, Repr

/-- Run the step of thread `b` (`false` is the first thread). -/
def stepSys (g : SysState) (who : Bool) : SysState :=
  if who then
    let r := stepThread g.shared g.tb
    { g with shared := r.1, tb := r.2 }
  else
    let r := stepThread g.shared g.ta
    { g with shared := r.1, ta := r.2 }

/-- Execute a schedule, one thread step at a time. -/
def runSchedule (g : SysState) : List Bool → SysState
  | [] => g
  | w :: ws => runSchedule (stepSys g w) ws

/-- Both threads about to enter `get_chain` with the identifier's slot
uninitialized. -/
def initSys : SysState :=
  { shared := { cache := none, nextId := 0, constructions := 0 }
    ta := { pc := 0, sawAbsent := false, built := none, result := none }
    tb := { pc := 0, sawAbsent := false, built := none, result := none } }

/-- A schedule in which both threads run their membership test before
either constructs. -/
def racySchedule : List Bool :=
  [false, true, false, false, false, true, true, true]

/-- A schedule in which the first thread finishes `get_chain` before the
second starts. -/
def sequentialSchedule : List Bool :=
  [false, false, false, false, true, true, true]

/-! ### Concrete inputs used to instantiate theorems with hypotheses -/

/-- A generic chunker that succeeds, returning the document as one chunk. -/
def genericOk : SplitFn := fun d => .ok [d]

/-- A structure-aware chunker that raises on every document. -/
def langFail : Lang → SplitFn := fun _ _ => .error "splitter failed"

/-- A loaded Python document, as `load_single_file` would stamp it. -/
def dPy : Doc :=
  { page_content := "x"
    metadata :=
      { source_type := "code", file_type := "py", category := "python",
        source_file := "a.py", language := some "python" } }

/-- A two-character documentation chunk. -/
def dShort : Doc :=
  { page_content := "ab"
    metadata :=
      { source_type := "documentation", file_type := "txt",
        category := "documentation", source_file := "n.txt", language := none } }

/-- A discovered `.json` file whose loader returned one piece of content. -/
def jsonFile : FileInput :=
  { path := "cfg.json", suffix := ".json", loaded := .ok ["x"] }

/-! ### Helper lemmas -/

theorem split_documents_append (langS : Lang → SplitFn) (genS : SplitFn)
    (xs ys : List Doc) :
    split_documents langS genS (xs ++ ys) =
      split_documents langS genS xs ++ split_documents langS genS ys := by
  simp [split_documents]

theorem split_documents_cons (langS : Lang → SplitFn) (genS : SplitFn)
    (d : Doc) (ds : List Doc) :
    split_documents langS genS (d :: ds) =
      split_one langS genS d ++ split_documents langS genS ds := by
  simp [split_documents]

theorem construct_chain_ok_id (key : Option String) (t : String) (fresh : Nat)
    (c : ChainInst) (h : construct_chain key t fresh = .ok c) : c.id = fresh := by
  unfold construct_chain at h
  cases hs : select_llm key t with
  | error e => rw [hs] at h; exact absurd h (by simp)
  | ok d =>
      rw [hs] at h
      have : ({ llm_type := t, id := fresh } : ChainInst) = c := by
        simpa using h
      rw [← this]

theorem categorize_file_cases (e : String) :
    ((categorize_file e).category = "unknown" ∧ (categorize_file e).is_code = false) ∨
    ∃ p, supported_file_types.find? (fun q => q.2.contains (lowercase e)) = some p ∧
      (categorize_file e).category = p.1 ∧
      (categorize_file e).is_code = !(p.1 == "documentation" || p.1 == "data") := by
  cases hf : supported_file_types.find? (fun q => q.2.contains (lowercase e)) with
  | none =>
      left
      constructor
      · simp only [categorize_file]; rw [hf]
      · simp only [categorize_file]; rw [hf]
  | some p =>
      right
      refine ⟨p, rfl, ?_, ?_⟩
      · simp only [categorize_file]; rw [hf]
      · simp only [categorize_file]; rw [hf]

/-! ### Claim theorems -/

/-- C3: for every extension string whose lowercased form is in none of the
configured extension lists, `categorize_file` yields category `"unknown"`
with `is_code` and `is_documentation` both false.  (`categorize_file` is a
total Lean function, so totality and determinism hold by construction.) -/
theorem categorize_unknown_total (ext : String)
    (h : ∀ p ∈ supported_file_types, lowercase ext ∉ p.2) :
    categorize_file ext =
      { category := "unknown", extension := lowercase ext,
        is_code := false, is_documentation := false } := by
  have hf : supported_file_types.find? (fun p => p.2.contains (lowercase ext)) = none := by
    rw [List.find?_eq_none]
    intro p hp
    simpa using h p hp
  simp only [categorize_file]
  rw [hf]

theorem categorize_unknown_total_w :
    categorize_file ".xyz" =
      { category := "unknown", extension := lowercase ".xyz",
        is_code := false, is_documentation := false } :=
  categorize_unknown_total ".xyz" (by decide)

/-- C4 counterexample: `".toml"` is listed under both `"rust"` and
`"data"` in `supported_file_types`, so the configured table is not a strict
function — the number of categories containing `".toml"` is 2, not 1. -/
theorem toml_in_two_categories :
    supported_file_types.countP (fun p => p.2.contains ".toml") = 2 ∧
    ¬ supported_file_types.countP (fun p => p.2.contains ".toml") = 1 := by
  decide

/-- C4 amended: every extension other than `".toml"` occurs in exactly one
category, and `categorize_file` assigns it that category; `".toml"` occurs
in two categories and `categorize_file` assigns the first of them in table
order (`"rust"`). -/
theorem extension_table_first_match :
    (∀ p ∈ supported_file_types, ∀ e ∈ p.2, e ≠ ".toml" →
        supported_file_types.countP (fun q => q.2.contains e) = 1 ∧
        (categorize_file e).category = p.1) ∧
    supported_file_types.countP (fun q => q.2.contains ".toml") = 2 ∧
    (categorize_file ".toml").category = "rust" := by
  decide

theorem extension_table_first_match_w :
    supported_file_types.countP (fun q => q.2.contains ".md") = 1 ∧
    (categorize_file ".md").category = "documentation" :=
  extension_table_first_match.1
    ("documentation", [".md", ".pdf", ".txt", ".rst", ".adoc", ".tex"])
    (by decide) ".md" (by decide) (by decide)

/-- C7: the privacy note of a query response depends only on the backend
identifier — two runs with the same backend but different questions,
retrieved chunks, and answers produce the identical note — and the note for
`"ollama"` states local-only processing while the note for `"claude"`
states that context was sent to Anthropic's servers. -/
theorem privacy_note_backend_only (t q1 q2 a1 a2 : String) (d1 d2 : List Doc) :
    (RAGChain.query t q1 d1 a1).privacy_note =
      (RAGChain.query t q2 d2 a2).privacy_note ∧
    (RAGChain.query "ollama" q1 d1 a1).privacy_note =
      "Processed locally with Ollama - your code stayed private." ∧
    (RAGChain.query "claude" q1 d1 a1).privacy_note =
      "⚠ Processed with Claude API - context was sent to Anthropic servers." := by
  exact ⟨rfl, rfl, rfl⟩

/-- C8 counterexample: on a chunk whose text is `"ab"`, the source entry's
content is `"ab..."`, not the first 200 characters of the chunk's text
(`"ab"`): the code appends a literal ellipsis to the truncated preview. -/
theorem source_preview_has_ellipsis :
    (RAGChain.query "ollama" "q" [dShort] "ans").sources.map SourceEntry.content ≠
      [takeChars dShort.page_content 200] := by
  decide

/-- C8 amended: the source list has one entry per retrieved chunk in
retrieval order, each entry's content is the first 200 characters of the
chunk's text followed by the marker `"..."`, and each entry carries the
chunk's full metadata. -/
theorem query_sources_structure (t q ans : String) (docs : List Doc) (i : Nat) :
    (RAGChain.query t q docs ans).sources.length = docs.length ∧
    (RAGChain.query t q docs ans).sources[i]? =
      (docs[i]?).map (fun d =>
        { content := takeChars d.page_content 200 ++ "...", metadata := d.metadata }) := by
  constructor
  · simp [RAGChain.query]
  · simp [RAGChain.query]

/-- C5: if the selected structure-aware chunker raises on a document, the
batch split still succeeds, using the generic chunker's chunks for that
document; if the generic chunker also raises, that document's chunks are
omitted and the rest of the batch is unaffected. -/
theorem split_fallback_to_generic (langS : Lang → SplitFn) (genS : SplitFn)
    (pre post : List Doc) (d : Doc) (lang : Lang) (msg : String)
    (hlang : lookupLang (normalizeExt d.metadata.file_type) = some lang)
    (hfail : langS lang d = .error msg) :
    (∀ cs, genS d = .ok cs →
      split_documents langS genS (pre ++ d :: post) =
        split_documents langS genS pre ++ cs ++ split_documents langS genS post) ∧
    (∀ msg2, genS d = .error msg2 →
      split_documents langS genS (pre ++ d :: post) =
        split_documents langS genS pre ++ split_documents langS genS post) := by
  constructor
  · intro cs hok
    rw [split_documents_append, split_documents_cons]
    simp [split_one, hlang, hfail, hok]
  · intro msg2 herr
    rw [split_documents_append, split_documents_cons]
    simp [split_one, hlang, hfail, herr]

theorem split_fallback_to_generic_w :
    split_documents langFail genericOk ([] ++ dPy :: []) =
      split_documents langFail genericOk [] ++ [dPy] ++
        split_documents langFail genericOk [] :=
  (split_fallback_to_generic langFail genericOk [] [] dPy .PYTHON
    "splitter failed" (by decide) rfl).1 [dPy] rfl

/-- C6 counterexample: on an empty document batch `run_ingestion` returns
no counts at all (the function is annotated `-> None` and every path ends
in a bare `return`), so it does not return `(0, 0)`. -/
theorem run_ingestion_no_counts :
    (run_ingestion langFail genericOk []).result ≠ some (0, 0) := by
  decide

/-- C6 amended: if discovery/loading produced zero documents, or splitting
produced zero chunks, `run_ingestion` warns, performs no vector-store
upsert, and returns without counts (its return value is `None`). -/
theorem run_ingestion_empty_guard (langS : Lang → SplitFn) (genS : SplitFn)
    (docs : List Doc)
    (h : docs = [] ∨ split_documents langS genS docs = []) :
    run_ingestion langS genS docs =
      { result := none, warned := true, upserted := none } := by
  rcases h with h | h
  · subst h; rfl
  · cases docs with
    | nil => rfl
    | cons d ds => simp [run_ingestion, h]

theorem run_ingestion_empty_guard_w :
    run_ingestion langFail genericOk [] =
      { result := none, warned := true, upserted := none } :=
  run_ingestion_empty_guard langFail genericOk [] (Or.inl rfl)

/-- C2: with a falsy `anthropic_api_key` and no cached `"claude"` entry,
`get_chain "claude"` raises the configuration error and leaves the cache
state unchanged; called on the same state with a truthy key it constructs a
chain and the cache then holds exactly one `"claude"` entry. -/
theorem get_chain_claude_key_validation (key key2 : Option String)
    (s : ManagerState)
    (hkey : truthy key = false) (hmem : s.find "claude" = none)
    (hkey2 : truthy key2 = true) :
    get_chain key s "claude" = (.error .missingAPIKey, s) ∧
    get_chain key2 s "claude" =
      (.ok { llm_type := "claude", id := s.nextId },
       { chains := ("claude", { llm_type := "claude", id := s.nextId }) :: s.chains,
         nextId := s.nextId + 1 }) ∧
    (("claude", ({ llm_type := "claude", id := s.nextId } : ChainInst)) :: s.chains).countP
        (fun p => p.1 == "claude") = 1 := by
  have hf : s.chains.find? (fun p => p.1 == "claude") = none := by
    have hm := hmem
    unfold ManagerState.find at hm
    exact Option.map_eq_none'.mp hm
  have h0 : s.chains.countP (fun p => p.1 == "claude") = 0 := by
    rw [List.countP_eq_zero]
    intro p hp
    have := List.find?_eq_none.mp hf p hp
    simpa using this
  refine ⟨?_, ?_, ?_⟩
  · simp [get_chain, hmem, construct_chain, select_llm, hkey]
  · simp [get_chain, hmem, construct_chain, select_llm, hkey2]
  · simp [List.countP_cons, h0]

theorem get_chain_claude_key_validation_w :
    get_chain none { chains := [], nextId := 0 } "claude" =
      (.error .missingAPIKey, { chains := [], nextId := 0 }) :=
  (get_chain_claude_key_validation none (some "sk-ant") { chains := [], nextId := 0 }
    rfl rfl rfl).1

/-- C9: invalidating the cache drops every entry at once, and for any
identifier whose chain `c` was cached before the invalidation, a successful
`get_chain` call on the invalidated state constructs a fresh instance
distinct from `c` (its id is the next allocation, above every id handed out
before). -/
theorem invalidate_cache_fresh_chain (key : Option String) (s : ManagerState)
    (t : String) (c c2 : ChainInst) (s2 : ManagerState)
    (hwf : CacheWF s) (hmem : (t, c) ∈ s.chains)
    (hrun : get_chain key (invalidate_cache s) t = (.ok c2, s2)) :
    (invalidate_cache s).chains = [] ∧ c2 ≠ c ∧ c2.id = s.nextId := by
  have hid : c2.id = s.nextId := by
    cases hc : construct_chain key t s.nextId with
    | error e =>
        have hg : get_chain key (invalidate_cache s) t = (.error e, invalidate_cache s) := by
          simp [get_chain, invalidate_cache, ManagerState.find, hc]
        rw [hg] at hrun
        exact absurd hrun (by simp)
    | ok c3 =>
        have hg : get_chain key (invalidate_cache s) t =
            (.ok c3, { chains := [(t, c3)], nextId := s.nextId + 1 }) := by
          simp [get_chain, invalidate_cache, ManagerState.find, hc]
        rw [hg] at hrun
        have h32 : c3 = c2 := by
          have := congrArg Prod.fst hrun
          simpa using this
        rw [← h32]
        exact construct_chain_ok_id key t s.nextId c3 hc
  have hlt : c.id < s.nextId := hwf (t, c) hmem
  refine ⟨rfl, ?_, hid⟩
  intro heq
  rw [heq] at hid
  rw [hid] at hlt
  exact lt_irrefl _ hlt

theorem invalidate_cache_fresh_chain_w :
    ({ llm_type := "ollama", id := 1 } : ChainInst) ≠
      { llm_type := "ollama", id := 0 } :=
  (invalidate_cache_fresh_chain none
    { chains := [("ollama", { llm_type := "ollama", id := 0 })], nextId := 1 }
    "ollama" { llm_type := "ollama", id := 0 } { llm_type := "ollama", id := 1 }
    { chains := [("ollama", { llm_type := "ollama", id := 1 })], nextId := 2 }
    (by intro p hp; simp at hp; rw [hp]; decide)
    (by simp) rfl).2.1

/-- C10: every document produced by `load_single_file` has `source_type`
either `"code"` or `"documentation"`; whenever the file's category is not a
code category (`is_code` false) — in particular for the `"data"` category —
the `source_type` collapses to `"documentation"`. -/
theorem data_category_source_type (f : FileInput) :
    ((categorize_file f.suffix).category = "data" →
      (categorize_file f.suffix).is_code = false ∧
      ∀ d ∈ load_single_file f, d.metadata.source_type = "documentation") ∧
    (∀ d ∈ load_single_file f,
      d.metadata.source_type = "code" ∨ d.metadata.source_type = "documentation") ∧
    ((categorize_file f.suffix).is_code = false →
      ∀ d ∈ load_single_file f, d.metadata.source_type = "documentation") := by
  have hcode : ∀ d ∈ load_single_file f,
      d.metadata.source_type =
        if (categorize_file f.suffix).is_code then "code" else "documentation" := by
    intro d hd
    unfold load_single_file at hd
    cases hl : f.loaded with
    | error e => rw [hl] at hd; simp at hd
    | ok contents =>
        rw [hl] at hd
        simp only [List.mem_map] at hd
        obtain ⟨text, _, hEq⟩ := hd
        rw [← hEq]
  have hdata : (categorize_file f.suffix).category = "data" →
      (categorize_file f.suffix).is_code = false := by
    intro h
    rcases categorize_file_cases f.suffix with ⟨hcat, hic⟩ | ⟨p, hfp, hcat, hic⟩
    · rw [hcat] at h; exact absurd h (by decide)
    · have hp : p.1 = "data" := hcat.symm.trans h
      rw [hic, hp]
      decide
  refine ⟨?_, ?_, ?_⟩
  · intro h
    refine ⟨hdata h, ?_⟩
    intro d hd
    rw [hcode d hd, hdata h]
    rfl
  · intro d hd
    rw [hcode d hd]
    cases (categorize_file f.suffix).is_code
    · right; rfl
    · left; rfl
  · intro h d hd
    rw [hcode d hd, h]
    rfl

theorem data_category_source_type_w :
    (categorize_file (FileInput.suffix jsonFile)).is_code = false :=
  ((data_category_source_type jsonFile).1 (by decide)).1

/-- C1: `RAGChainManager.get_chain` has no synchronization, so under the
interleaving in which both threads run the `llm_type not in self.chains`
test before either inserts, two RAGChain constructions occur and the two
callers receive distinct instances; the claim of exactly one construction
with a shared instance holds only for the sequential schedule. -/
theorem get_chain_unsynchronized_race :
    (runSchedule initSys racySchedule).shared.constructions = 2 ∧
    (runSchedule initSys racySchedule).ta.result = some 0 ∧
    (runSchedule initSys racySchedule).tb.result = some 1 ∧
    (runSchedule initSys racySchedule).ta.result ≠
      (runSchedule initSys racySchedule).tb.result ∧
    (runSchedule initSys sequentialSchedule).shared.constructions = 1 ∧
    (runSchedule initSys sequentialSchedule).ta.result =
      (runSchedule initSys sequentialSchedule).tb.result := by
  decide

end TellMeWhy
